import Mathlib

/-!
Shallow embedding of the swimlane auto-create decision engine
(Go sources: swimlane logic in the main package).

The pure decision logic is translated function by function; the only
I/O-performing step inside `getSwimlaneUpdates` (fetching the dashboard's
current swimlanes) is abstracted as an `Except`-valued argument standing for
the result of `getCurrentSwimlanes dashboardID`.
-/

/-- `const labelsFieldID string = "labels"` -/
def labelsFieldID : String := "labels"

/-- `const summaryFieldID string = "summary"` -/
def summaryFieldID : String := "summary"

/-- `const swimlaneStoryLabel string = "swimline-story"` -/
def swimlaneStoryLabel : String := "swimline-story"

/-- `const createAction string = "create"` -/
def createAction : String := "create"

/-- `const removeAction string = "remove"` -/
def removeAction : String := "remove"

/-- `const recyclingTeamLabel string = "recycling-nsk"` -/
def recyclingTeamLabel : String := "recycling-nsk"

/-- `const recyclingTeamDashboardID int = 351` -/
def recyclingTeamDashboardID : Int := 351

/-- Go struct `swimlane`: ID, Name, Description, Query. -/
structure swimlane where
  ID : Int
  Name : String
  Description : String
  Query : String
deriving Repr, DecidableEq

/-- Go struct `field`: ID, Text. -/
structure field where
  ID : String
  Text : String
deriving Repr, DecidableEq

/-- Go struct `issue`: Key, Fields. -/
structure issue where
  Key : String
  Fields : List field
deriving Repr, DecidableEq

/-- Go struct `swimlaneUpdates`: ID, Name, Action, Query.
Defaults are Go's zero values, so `{}` is the zero-value struct. -/
structure swimlaneUpdates where
  ID : Int := 0
  Name : String := ""
  Action : String := ""
  Query : String := ""
deriving Repr, DecidableEq

/-- Go struct `changelogItem`: ToString, FromString, Field. -/
structure changelogItem where
  ToString : String
  FromString : String
  Field : String
deriving Repr, DecidableEq

/-- Fuel-indexed splitter over character lists: one recursion step either
consumes a leading occurrence of the (nonempty) separator or moves one
character into the current piece, so fuel = length of the input suffices. -/
def splitFuel (sep : List Char) : Nat → List Char → List (List Char)
  | 0, s => [s]
  | fuel + 1, s =>
    if sep.isPrefixOf s && !sep.isEmpty then
      [] :: splitFuel sep fuel (s.drop sep.length)
    else
      match s with
      | [] => [[]]
      | c :: cs =>
        match splitFuel sep fuel cs with
        | [] => [[c]]
        | p :: ps => (c :: p) :: ps

/-- Embedding of Go `strings.Split(s, sep)` for nonempty `sep`:
splits `s` on every non-overlapping leftmost occurrence of `sep`;
splitting the empty string yields one empty token. -/
def stringsSplit (s sep : String) : List String :=
  (splitFuel sep.toList s.toList.length s.toList).map fun l => String.mk l

/-- Go `has(array []string, value string) bool`: linear scan, exact equality. -/
def has (array : List String) (value : String) : Bool :=
  match array with
  | [] => false
  | item :: rest => if item = value then true else has rest value

/-- Go `getDashboardID(newLabels []string) int`. -/
def getDashboardID (newLabels : List String) : Int :=
  match newLabels with
  | [] => 0
  | label :: rest =>
    if label = recyclingTeamLabel then recyclingTeamDashboardID
    else getDashboardID rest

/-- Go `getLabelsFromChangelog(items []changelogItem) ([]string, []string)`:
first item whose Field is "labels" has its FromString and ToString split
on ","; if none, returns two empty lists (Go: nil, nil). -/
def getLabelsFromChangelog (items : List changelogItem) :
    List String × List String :=
  match items with
  | [] => ([], [])
  | item :: rest =>
    if item.Field = labelsFieldID then
      (stringsSplit item.FromString ",", stringsSplit item.ToString ",")
    else getLabelsFromChangelog rest

/-- Go `getSwimlaneID(name string, swimlanes []swimlane) int`:
first swimlane with matching name, else sentinel 0. -/
def getSwimlaneID (name : String) (swimlanes : List swimlane) : Int :=
  match swimlanes with
  | [] => 0
  | s :: rest => if s.Name = name then s.ID else getSwimlaneID name rest

/-- Go `isNeedToCreateSwimlane(newLabels, oldLabels []string) bool`. -/
def isNeedToCreateSwimlane (newLabels oldLabels : List String) : Bool :=
  has newLabels swimlaneStoryLabel && !has oldLabels swimlaneStoryLabel

/-- Go `isNeedToRemoveSwimlane(newLabels, oldLabels []string) bool`. -/
def isNeedToRemoveSwimlane (newLabels oldLabels : List String) : Bool :=
  !has newLabels swimlaneStoryLabel && has oldLabels swimlaneStoryLabel

/-- Go `dashboardSwimlaneAlreadyExists(currentSwimlanes []swimlane, newSwimlane string) bool`. -/
def dashboardSwimlaneAlreadyExists (currentSwimlanes : List swimlane)
    (newSwimlane : String) : Bool :=
  match currentSwimlanes with
  | [] => false
  | s :: rest =>
    if s.Name = newSwimlane then true
    else dashboardSwimlaneAlreadyExists rest newSwimlane

/-- The loop body of Go `getSwimlaneName` over the issue's fields. -/
def getSwimlaneNameLoop (key : String) : List field → String
  | [] => "<" ++ key ++ "> No summary"
  | f :: rest =>
    if f.ID = summaryFieldID then "<" ++ key ++ "> " ++ f.Text
    else getSwimlaneNameLoop key rest

/-- Go `getSwimlaneName(issue issue) string`: first field with id "summary"
gives `"<key> text"`, otherwise `"<key> No summary"`. -/
def getSwimlaneName (i : issue) : String :=
  getSwimlaneNameLoop i.Key i.Fields

/-- Go `getSwimlaneQuery(issueKey string) string`. -/
def getSwimlaneQuery (issueKey : String) : String :=
  "issue in linkedIssues(" ++ issueKey ++ ")"

/-- The loop of Go `getLabelsField`: text of first field with id "labels",
default `""`. -/
def labelsTextOfFields : List field → String
  | [] => ""
  | f :: rest => if f.ID = labelsFieldID then f.Text else labelsTextOfFields rest

/-- Go `getLabelsField(fields []field) []string`: split the labels field's
text on ", " (comma-space). -/
def getLabelsField (fields : List field) : List String :=
  stringsSplit (labelsTextOfFields fields) ", "

/-- Go `getSwimlaneUpdates(dashboardID int, newIssue issue, oldLabels, newLabels
[]string) (swimlaneUpdates, error)`. The internal call
`getCurrentSwimlanes(dashboardID)` is abstracted by the `Except`-valued first
argument; its error is propagated unchanged, exactly as the Go early return. -/
def getSwimlaneUpdates (currentSwimlanesResult : Except String (List swimlane))
    (newIssue : issue) (oldLabels newLabels : List String) :
    Except String swimlaneUpdates :=
  match currentSwimlanesResult with
  | Except.error e => Except.error e
  | Except.ok currentSwimlanes =>
    let swimlaneName := getSwimlaneName newIssue
    let needToCreateSwimlanes := isNeedToCreateSwimlane newLabels oldLabels
    if needToCreateSwimlanes &&
        dashboardSwimlaneAlreadyExists currentSwimlanes swimlaneName then
      Except.ok {}
    else
      let result : swimlaneUpdates :=
        if needToCreateSwimlanes then
          { Name := swimlaneName
            Action := createAction
            Query := getSwimlaneQuery newIssue.Key }
        else {}
      let result :=
        if isNeedToRemoveSwimlane newLabels oldLabels then
          { ID := getSwimlaneID swimlaneName currentSwimlanes
            Name := swimlaneName
            Action := removeAction }
        else result
      Except.ok result

/-- If the remove condition holds, the create condition is false: the trigger
label cannot be both present and absent from the new labels. -/
lemma isNeedToCreateSwimlane_eq_false_of_remove (newLabels oldLabels : List String)
    (h : isNeedToRemoveSwimlane newLabels oldLabels = true) :
    isNeedToCreateSwimlane newLabels oldLabels = false := by
  unfold isNeedToRemoveSwimlane at h
  unfold isNeedToCreateSwimlane
  cases hn : has newLabels swimlaneStoryLabel <;> simp [hn] at h ⊢

/-- A changelog with no "labels" item yields two empty label lists. -/
lemma getLabelsFromChangelog_eq_nil (items : List changelogItem)
    (h : ∀ item ∈ items, item.Field ≠ labelsFieldID) :
    getLabelsFromChangelog items = ([], []) := by
  induction items with
  | nil => rfl
  | cons item rest ih =>
    have h1 : item.Field ≠ labelsFieldID := h item (by simp)
    simp only [getLabelsFromChangelog, if_neg h1]
    exact ih fun x hx => h x (by simp [hx])

/-- If no swimlane matches the name, the looked-up identity is the sentinel 0. -/
lemma getSwimlaneID_eq_zero (name : String) (swimlanes : List swimlane)
    (h : ∀ s ∈ swimlanes, s.Name ≠ name) :
    getSwimlaneID name swimlanes = 0 := by
  induction swimlanes with
  | nil => rfl
  | cons s rest ih =>
    have h1 : s.Name ≠ name := h s (by simp)
    simp only [getSwimlaneID, if_neg h1]
    exact ih fun x hx => h x (by simp [hx])

/-- C1: if the create condition holds and a swimlane with the derived name is
already on the dashboard, `getSwimlaneUpdates` returns the zero-value decision
with no error; consequently a Create decision is only ever returned when no
current swimlane carries its name. -/
theorem getSwimlaneUpdates_never_duplicate_create
    (newIssue : issue) (oldLabels newLabels : List String)
    (currentSwimlanes : List swimlane) :
    (isNeedToCreateSwimlane newLabels oldLabels = true →
      dashboardSwimlaneAlreadyExists currentSwimlanes (getSwimlaneName newIssue) = true →
      getSwimlaneUpdates (Except.ok currentSwimlanes) newIssue oldLabels newLabels =
        Except.ok {}) ∧
    ∀ u : swimlaneUpdates,
      getSwimlaneUpdates (Except.ok currentSwimlanes) newIssue oldLabels newLabels =
        Except.ok u →
      u.Action = createAction →
      dashboardSwimlaneAlreadyExists currentSwimlanes u.Name = false := by
  constructor
  · intro hc he
    simp [getSwimlaneUpdates, hc, he]
  · intro u hu hact
    cases hc : isNeedToCreateSwimlane newLabels oldLabels <;>
      cases hr : isNeedToRemoveSwimlane newLabels oldLabels <;>
      cases he : dashboardSwimlaneAlreadyExists currentSwimlanes (getSwimlaneName newIssue) <;>
      simp [getSwimlaneUpdates, hc, hr, he] at hu <;>
      subst hu <;>
      first
        | simpa using he
        | (simp [createAction, removeAction] at hact
           all_goals exact absurd hact (by decide))

/-- Witness for C1 at the spec's Scenario B: the matching swimlane already
exists, so the decision is the zero-value no-op. -/
theorem getSwimlaneUpdates_never_duplicate_create_witness :
    getSwimlaneUpdates (Except.ok [⟨7, "<PROJ-1> Fix crash", "", ""⟩])
      ⟨"PROJ-1", [⟨"summary", "Fix crash"⟩]⟩ ["bug"] ["bug", "swimline-story"] =
      Except.ok {} :=
  (getSwimlaneUpdates_never_duplicate_create
      ⟨"PROJ-1", [⟨"summary", "Fix crash"⟩]⟩ ["bug"] ["bug", "swimline-story"]
      [⟨7, "<PROJ-1> Fix crash", "", ""⟩]).1 (by decide) (by decide)

/-- C2: the claim quantifies over inputs where the create and remove conditions
are both true; that conjunction is unsatisfiable (both conditions test whether
the trigger label is in the new labels, with opposite polarity), so we prove
the stronger satisfiable form: whenever the remove condition holds — in
particular on any input where both conditions held — the decision is the
Remove decision, whose action string differs from the create action. -/
theorem getSwimlaneUpdates_remove_precedence
    (newIssue : issue) (oldLabels newLabels : List String)
    (currentSwimlanes : List swimlane)
    (hRemove : isNeedToRemoveSwimlane newLabels oldLabels = true) :
    getSwimlaneUpdates (Except.ok currentSwimlanes) newIssue oldLabels newLabels =
      Except.ok { ID := getSwimlaneID (getSwimlaneName newIssue) currentSwimlanes,
                  Name := getSwimlaneName newIssue,
                  Action := removeAction } ∧
    removeAction ≠ createAction := by
  have hc := isNeedToCreateSwimlane_eq_false_of_remove newLabels oldLabels hRemove
  refine ⟨?_, by decide⟩
  simp [getSwimlaneUpdates, hc, hRemove]

/-- Witness for C2 at the spec's Scenario D shape: removing with an empty
dashboard yields the Remove decision with sentinel identity 0. -/
theorem getSwimlaneUpdates_remove_precedence_witness :
    getSwimlaneUpdates (Except.ok []) ⟨"PROJ-1", [⟨"summary", "Fix crash"⟩]⟩
      ["swimline-story"] [] =
      Except.ok { ID := 0, Name := "<PROJ-1> Fix crash", Action := "remove" } ∧
    removeAction ≠ createAction :=
  getSwimlaneUpdates_remove_precedence
    ⟨"PROJ-1", [⟨"summary", "Fix crash"⟩]⟩ ["swimline-story"] [] [] (by decide)

/-- C3: the create and remove conditions are mutually exclusive on every pair
of label lists. -/
theorem isNeedToCreate_isNeedToRemove_mutually_exclusive :
    ∀ oldLabels newLabels : List String,
      (isNeedToCreateSwimlane newLabels oldLabels &&
        isNeedToRemoveSwimlane newLabels oldLabels) = false := by
  intro o n
  unfold isNeedToCreateSwimlane isNeedToRemoveSwimlane
  cases has n swimlaneStoryLabel <;> cases has o swimlaneStoryLabel <;> rfl

/-- C4: a changelog whose items never carry field name "labels" yields two
empty label lists (not an error), and the decision computed from them is the
zero-value no-op. -/
theorem noLabelsChangelog_empty_sets_and_noop
    (items : List changelogItem) (newIssue : issue)
    (currentSwimlanes : List swimlane)
    (h : ∀ item ∈ items, item.Field ≠ labelsFieldID) :
    getLabelsFromChangelog items = ([], []) ∧
    getSwimlaneUpdates (Except.ok currentSwimlanes) newIssue
      (getLabelsFromChangelog items).1 (getLabelsFromChangelog items).2 =
      Except.ok {} := by
  have hsplit := getLabelsFromChangelog_eq_nil items h
  refine ⟨hsplit, ?_⟩
  rw [hsplit]
  rfl

/-- Witness for C4: a status-only changelog produces empty label lists and a
no-op decision. -/
theorem noLabelsChangelog_empty_sets_and_noop_witness :
    getLabelsFromChangelog [⟨"done", "todo", "status"⟩] = ([], []) ∧
    getSwimlaneUpdates (Except.ok []) ⟨"PROJ-1", []⟩
      (getLabelsFromChangelog [⟨"done", "todo", "status"⟩]).1
      (getLabelsFromChangelog [⟨"done", "todo", "status"⟩]).2 =
      Except.ok {} :=
  noLabelsChangelog_empty_sets_and_noop [⟨"done", "todo", "status"⟩]
    ⟨"PROJ-1", []⟩ [] (by decide)

/-- C5: the changelog path splits from-value and to-value on the one-character
separator ",", while the field path splits the labels field's text on the
two-character separator ", "; the two separators behave differently on the
same text. -/
theorem label_split_separators :
    (∀ (t f : String) (rest : List changelogItem),
      getLabelsFromChangelog ({ ToString := t, FromString := f, Field := labelsFieldID } :: rest) =
        (stringsSplit f ",", stringsSplit t ",")) ∧
    (∀ (text : String) (rest : List field),
      getLabelsField ({ ID := labelsFieldID, Text := text } :: rest) =
        stringsSplit text ", ") ∧
    stringsSplit "a, b" "," = ["a", " b"] ∧
    stringsSplit "a, b" ", " = ["a", "b"] := by
  refine ⟨fun t f rest => ?_, fun text rest => ?_, by decide, by decide⟩
  · simp [getLabelsFromChangelog]
  · simp [getLabelsField, labelsTextOfFields]

/-- C6: with no "labels" field present, `getLabelsField` returns the
one-element list containing the empty string, not the empty list. -/
theorem getLabelsField_absent_singleton_empty
    (fields : List field) (h : ∀ f ∈ fields, f.ID ≠ labelsFieldID) :
    getLabelsField fields = [""] := by
  have htext : labelsTextOfFields fields = "" := by
    induction fields with
    | nil => rfl
    | cons f rest ih =>
      have h1 : f.ID ≠ labelsFieldID := h f (by simp)
      simp only [labelsTextOfFields, if_neg h1]
      exact ih fun x hx => h x (by simp [hx])
  rw [getLabelsField, htext]
  rfl

/-- Witness for C6: an issue snapshot with only a summary field yields the
singleton empty-string label list. -/
theorem getLabelsField_absent_singleton_empty_witness :
    getLabelsField [⟨"summary", "Fix crash"⟩] = [""] :=
  getLabelsField_absent_singleton_empty [⟨"summary", "Fix crash"⟩] (by decide)

/-- C7: `getSwimlaneName` returns `"<key> text"` for the first field with id
"summary", and `"<key> No summary"` when no such field exists; being a plain
function of the issue, it is pure. -/
theorem getSwimlaneName_first_summary_field :
    ∀ i : issue,
      getSwimlaneName i =
        match i.Fields.find? fun f => f.ID == summaryFieldID with
        | some f => "<" ++ i.Key ++ "> " ++ f.Text
        | none => "<" ++ i.Key ++ "> No summary" := by
  intro i
  obtain ⟨key, fields⟩ := i
  simp only [getSwimlaneName]
  induction fields with
  | nil => rfl
  | cons f rest ih =>
    by_cases hf : f.ID = summaryFieldID
    · simp [getSwimlaneNameLoop, List.find?, hf]
    · have hf2 : (f.ID == summaryFieldID) = false := by
        simpa using hf
      simp only [getSwimlaneNameLoop, if_neg hf, List.find?, hf2]
      exact ih

/-- C8: when the remove condition holds and no current swimlane carries the
derived name, the decision is Remove with the sentinel identity 0 and the
derived name, with no error. -/
theorem remove_decision_not_found_sentinel
    (newIssue : issue) (oldLabels newLabels : List String)
    (currentSwimlanes : List swimlane)
    (hRemove : isNeedToRemoveSwimlane newLabels oldLabels = true)
    (hNone : ∀ s ∈ currentSwimlanes, s.Name ≠ getSwimlaneName newIssue) :
    getSwimlaneUpdates (Except.ok currentSwimlanes) newIssue oldLabels newLabels =
      Except.ok { ID := 0, Name := getSwimlaneName newIssue, Action := removeAction } := by
  have hc := isNeedToCreateSwimlane_eq_false_of_remove newLabels oldLabels hRemove
  have hid := getSwimlaneID_eq_zero (getSwimlaneName newIssue) currentSwimlanes hNone
  simp [getSwimlaneUpdates, hc, hRemove, hid]

/-- Witness for C8 at the spec's Scenario D: empty dashboard, trigger label
removed. -/
theorem remove_decision_not_found_sentinel_witness :
    getSwimlaneUpdates (Except.ok []) ⟨"PROJ-1", [⟨"summary", "Fix crash"⟩]⟩
      ["swimline-story"] [] =
      Except.ok { ID := 0, Name := "<PROJ-1> Fix crash", Action := "remove" } :=
  remove_decision_not_found_sentinel ⟨"PROJ-1", [⟨"summary", "Fix crash"⟩]⟩
    ["swimline-story"] [] [] (by decide) (by decide)

/-- C9: `getDashboardID` returns the recycling team's dashboard id 351 exactly
when the label list contains "recycling-nsk", and the sentinel 0 otherwise. -/
theorem getDashboardID_recycling_or_sentinel :
    ∀ newLabels : List String,
      getDashboardID newLabels =
        if has newLabels "recycling-nsk" then (351 : Int) else 0 := by
  intro ls
  induction ls with
  | nil => rfl
  | cons l rest ih =>
    by_cases hl : l = recyclingTeamLabel
    · simp [getDashboardID, has, hl, recyclingTeamLabel, recyclingTeamDashboardID]
    · have hl2 : l ≠ "recycling-nsk" := hl
      simp only [getDashboardID, has, if_neg hl, if_neg hl2]
      exact ih

/-- C10: exact-equality label matching misses trigger labels encoded with a
comma-space separator on the changelog path: splitting the from-value
"other, swimline-story" on "," yields " swimline-story" with a leading space,
which is not the trigger label, so the remove condition is false and the
decision is the zero-value no-op. -/
theorem changelog_comma_space_misses_trigger :
    getLabelsFromChangelog
        [{ ToString := "", FromString := "other, swimline-story", Field := "labels" }] =
      (["other", " swimline-story"], [""]) ∧
    " swimline-story" ∈
      (getLabelsFromChangelog
        [{ ToString := "", FromString := "other, swimline-story", Field := "labels" }]).1 ∧
    " swimline-story" ≠ swimlaneStoryLabel ∧
    has ["other", " swimline-story"] swimlaneStoryLabel = false ∧
    isNeedToRemoveSwimlane [""] ["other", " swimline-story"] = false ∧
    getSwimlaneUpdates (Except.ok []) ⟨"PROJ-1", [⟨"summary", "Fix crash"⟩]⟩
      ["other", " swimline-story"] [""] = Except.ok {} := by
  refine ⟨by decide, by decide, by decide, by decide, by decide, rfl⟩
